import Mathlib

/-
Shallow embedding of the read-job scheduler of QDirStat
(src/DirReadJob.cpp, src/pkg/PkgReader.cpp).

Directories and jobs are identified by natural-number ids.  Tree parent
links are a function `parentOf : Nat → Option Nat`; walking ancestor
chains uses explicit fuel (the C++ walks raw parent pointers).
-/

namespace QDirStat

/-- Embedding of enum DirReadState (DirInfo.h, used throughout DirReadJob.cpp). -/
inductive ReadState where
  | DirQueued
  | DirReading
  | DirFinished
  | DirOnRequestOnly
  | DirError
  | DirAborted
deriving DecidableEq, Repr

/-- Embedding of a DirReadJob as the queue sees it: an identity (`jid`,
standing for the C++ object identity) and the directory node the job is
bound to (`_dir`, which may be null). -/
structure DirReadJob where
  jid : Nat
  dir : Option Nat
deriving DecidableEq, Repr

/-- Qt signals emitted by DirReadJobQueue. -/
inductive Signal where
  | startingReading
  | finished
deriving DecidableEq, Repr

/-- State of DirReadJobQueue: the runnable FIFO `_queue`, the `_blocked`
list, and whether the zero-interval `_timer` is active. -/
structure QueueState where
  queue : List DirReadJob
  blocked : List DirReadJob
  timerActive : Bool
deriving DecidableEq, Repr

/-- Embedding of QList::removeOne on the runnable queue: remove the first
occurrence of the job (identified by `jid`), as used by
DirReadJobQueue::jobFinishedNotify. -/
def removeOne (j : Nat) : List DirReadJob → List DirReadJob
  | [] => []
  | x :: xs => if x.jid = j then xs else x :: removeOne j xs

/-- Embedding of DirReadJobQueue::enqueue (DirReadJob.cpp lines 598-612):
append to `_queue`; if the timer was idle, emit `startingReading` and
start the timer.  The returned list holds the signals emitted. -/
def enqueue (job : DirReadJob) (s : QueueState) : QueueState × List Signal :=
  if s.timerActive then
    ({ s with queue := s.queue ++ [job] }, [])
  else
    ({ queue := s.queue ++ [job], blocked := s.blocked, timerActive := true },
     [Signal.startingReading])

/-- Embedding of DirReadJobQueue::addBlocked (lines 745-748): append to
`_blocked`; no timer interaction, no signal. -/
def addBlocked (job : DirReadJob) (s : QueueState) : QueueState :=
  { s with blocked := s.blocked ++ [job] }

/-- Embedding of DirReadJobQueue::unblock (lines 751-758):
`_blocked.removeAll(job)` then `enqueue(job)`. -/
def unblock (job : DirReadJob) (s : QueueState) : QueueState × List Signal :=
  enqueue job
    { queue := s.queue
      blocked := s.blocked.filter (fun e => e.jid != job.jid)
      timerActive := s.timerActive }

/-- Embedding of DirReadJobQueue::jobFinishedNotify (lines 712-732):
remove the finished job from `_queue` (only!) and delete it; when the
runnable queue became empty, stop the timer and — if `_blocked` is also
empty — emit `finished`. -/
def jobFinishedNotify (j : Nat) (s : QueueState) : QueueState × List Signal :=
  let q := removeOne j s.queue
  if q = [] then
    ({ queue := q, blocked := s.blocked, timerActive := false },
     if s.blocked = [] then [Signal.finished] else [])
  else
    ({ queue := q, blocked := s.blocked, timerActive := s.timerActive }, [])

/-- External queue events, for reasoning about whole scans. -/
inductive QEvent where
  | enqueueEv (job : DirReadJob)
  | finishNotifyEv (jid : Nat)
  | addBlockedEv (job : DirReadJob)
  | unblockEv (job : DirReadJob)
deriving DecidableEq, Repr

/-- One queue event applied to a state. -/
def qstep (s : QueueState) : QEvent → QueueState × List Signal
  | QEvent.enqueueEv job => enqueue job s
  | QEvent.finishNotifyEv j => jobFinishedNotify j s
  | QEvent.addBlockedEv job => (addBlocked job s, [])
  | QEvent.unblockEv job => unblock job s

/-- A sequence of queue events, collecting all emitted signals. -/
def runEvents (s : QueueState) : List QEvent → QueueState × List Signal
  | [] => (s, [])
  | e :: es =>
    let r := qstep s e
    let r2 := runEvents r.1 es
    (r2.1, r.2 ++ r2.2)

/-- Embedding of FileInfo::isInSubtree: walk the parent chain from `n`
looking for `subtree`; `fuel` bounds the walk (the C++ walks raw parent
pointers of an acyclic tree). -/
def isInSubtree (parentOf : Nat → Option Nat) : Nat → Nat → Nat → Bool
  | 0, _, _ => false
  | fuel + 1, n, subtree =>
    if n = subtree then true
    else
      match parentOf n with
      | some p => isInSubtree parentOf fuel p subtree
      | none => false

/-- The per-job predicate of DirReadJobQueue::killAll (lines 653-702):
a job survives when it is the `exceptJob` or its bound directory is not
inside the subtree (jobs with a null dir also survive). -/
def keepJob (parentOf : Nat → Option Nat) (fuel : Nat) (subtree : Nat)
    (exceptJob : Option Nat) (job : DirReadJob) : Bool :=
  if exceptJob = some job.jid then true
  else
    match job.dir with
    | some dd => ! isInSubtree parentOf fuel dd subtree
    | none => true

/-- Embedding of DirReadJobQueue::killAll (lines 653-702): iterate
`_queue` and `_blocked`, removing and destroying every job whose bound
directory is inside `subtree`, except `exceptJob`. -/
def killAll (parentOf : Nat → Option Nat) (fuel : Nat) (subtree : Nat)
    (exceptJob : Option Nat) (s : QueueState) : QueueState :=
  { queue := s.queue.filter (keepJob parentOf fuel subtree exceptJob)
    blocked := s.blocked.filter (keepJob parentOf fuel subtree exceptJob)
    timerActive := s.timerActive }

/-- Embedding of DirReadJob::crossingFileSystems (DirReadJob.cpp lines
94-123).  `parentDev` and `childDev` are the stat `dev` fields of parent
and child; `childDevice` is the mount-table device string for the child
url, `parentMountDevice` the one for the nearest mount point of the
parent, `treeDevice` the device string of the tree (all empty when
unknown).  Returns whether a filesystem boundary is being crossed. -/
def crossingFileSystems (parentDev childDev : Nat)
    (childDevice parentMountDevice treeDevice : String) : Bool :=
  if parentDev = childDev then
    false
  else
    let parentDevice := if parentMountDevice.isEmpty then treeDevice else parentMountDevice
    if parentDevice.isEmpty = false ∧ childDevice.isEmpty = false then
      parentDevice != childDevice
    else
      true

/-- Observable outcome of LocalDirReadJob::processSubDir for one child:
whether the child was marked excluded, flagged as a mount point, its
resulting read state, and whether a new LocalDirReadJob was enqueued for
it (with the apply-child-file-exclude-rules flag). -/
structure SubDirResult where
  excluded : Bool
  mountPoint : Bool
  readState : ReadState
  jobEnqueued : Bool
  jobApplyFlag : Bool
deriving DecidableEq, Repr

/-- Embedding of LocalDirReadJob::processSubDir (DirReadJob.cpp lines
310-346).  `rules fullPath baseName` is the ExcludeRules::match test; a
fresh DirInfo child starts in state DirQueued; `finishReading(subDir,
DirOnRequestOnly)` leaves it in DirOnRequestOnly. -/
def processSubDir (rules : String → String → Bool) (fullPath baseName : String)
    (parentDev childDev : Nat) (childDevice parentMountDevice treeDevice : String)
    (crossFs : Bool) : SubDirResult :=
  if rules fullPath baseName then
    { excluded := true, mountPoint := false, readState := ReadState.DirOnRequestOnly
      jobEnqueued := false, jobApplyFlag := false }
  else if crossingFileSystems parentDev childDev childDevice parentMountDevice treeDevice
          = false then
    { excluded := false, mountPoint := false, readState := ReadState.DirQueued
      jobEnqueued := true, jobApplyFlag := true }
  else if crossFs then
    { excluded := false, mountPoint := true, readState := ReadState.DirQueued
      jobEnqueued := true, jobApplyFlag := true }
  else
    { excluded := false, mountPoint := true, readState := ReadState.DirOnRequestOnly
      jobEnqueued := false, jobApplyFlag := false }

/-- Result of LocalDirReadJob::readCacheFile on the scheduler state:
the returned bool (`preempted`), the queue, the signals emitted by the
enqueue, the surviving tree nodes, the read states, the cache-reader
offset and whether the reader object was kept alive. -/
structure CachePreemptResult where
  preempted : Bool
  qs : QueueState
  signals : List Signal
  nodes : List Nat
  readState : Nat → ReadState
  readerPos : Nat
  readerKept : Bool

/-- Embedding of LocalDirReadJob::readCacheFile (DirReadJob.cpp lines
349-402).  `d` is the directory being read, `dirName` its url,
`firstDirInCache` the header of the cache file (reading it moved the
reader offset to `posAfterHeader`), `cjid` the identity of the freshly
created CacheReadJob (bound to the parent of `d`).  On a match at top
level the code runs `_tree->clear(); _tree->readCache(...)`; DirTree is
not in src, so that branch is modelled from the spec: clear the entire
tree and restart reading from the cache file.  On a non-top-level match:
rewind the reader, enqueue the cache job, set the parent of `d` to
DirReading, `killAll(d, cacheReadJob)`, then `deleteSubtree(d)`
(DirTree::deleteSubtree is not in src; modelled from the spec: the
previously-read subtree of `d` is deleted).  On a mismatch: delete the
cache job and its reader, return false, leave everything untouched. -/
def readCacheFile (parentOf : Nat → Option Nat) (fuel : Nat) (qs : QueueState)
    (nodes : List Nat) (readState : Nat → ReadState)
    (d : Nat) (dirName firstDirInCache : String) (isTopLevel : Bool)
    (cjid : Nat) (posAfterHeader : Nat) : CachePreemptResult :=
  let cacheJob : DirReadJob := { jid := cjid, dir := parentOf d }
  if firstDirInCache = dirName then
    if isTopLevel then
      let cleared : QueueState :=
        { queue := [], blocked := [], timerActive := qs.timerActive }
      let r := enqueue { jid := cjid, dir := none } cleared
      { preempted := true, qs := r.1, signals := r.2, nodes := []
        readState := readState, readerPos := 0, readerKept := true }
    else
      let r := enqueue cacheJob qs
      let rs1 : Nat → ReadState :=
        match parentOf d with
        | some p => fun n => if n = p then ReadState.DirReading else readState n
        | none => readState
      let qs2 := killAll parentOf fuel d (some cjid) r.1
      let nodes1 := nodes.filter (fun n => ! isInSubtree parentOf fuel n d)
      { preempted := true, qs := qs2, signals := r.2, nodes := nodes1
        readState := rs1, readerPos := 0, readerKept := true }
  else
    { preempted := false, qs := qs, signals := [], nodes := nodes
      readState := readState, readerPos := posAfterHeader, readerKept := false }

/-- Abstract state of a CacheReader: whether it is ok, the current read
offset in lines, and the total number of lines in the cache file. -/
structure CacheReader where
  ok : Bool
  pos : Nat
  totalLines : Nat
deriving DecidableEq, Repr

/-- End-of-file test of a CacheReader. -/
def CacheReader.eof (r : CacheReader) : Bool := r.totalLines ≤ r.pos

/-- Modelled from the spec: CacheReader::read(maxLines) (DirTreeCache is
not in src) parses up to `maxLines` cache lines, advancing the offset. -/
def cacheReaderRead (r : CacheReader) (maxLines : Nat) : CacheReader :=
  { r with pos := min (r.pos + maxLines) r.totalLines }

/-- Embedding of CacheReadJob::read (DirReadJob.cpp lines 559-578),
faithful to the control flow of the source: when `_reader` is null the
code calls `finished()` — which makes the queue delete this job — and
then still executes `_reader->read(1000)`, a null-pointer dereference,
modelled as `Except.error`.  The first component records whether
`finished()` was called in the null check; on the non-null path the
result carries the advanced reader and whether `finished()` was called
at the eof / not-ok check. -/
def cacheReadJobRead (reader : Option CacheReader) :
    Bool × Except String (CacheReader × Bool) :=
  let finishedCalledEarly := reader.isNone
  match reader with
  | none =>
    (finishedCalledEarly,
     Except.error "null _reader dereferenced in _reader->read(1000)")
  | some r =>
    let r2 := cacheReaderRead r 1000
    (finishedCalledEarly, Except.ok (r2, r2.eof || ! r2.ok))

/-- The well-known cache file name (DEFAULT_CACHE_NAME). -/
def DEFAULT_CACHE_NAME : String := ".qdirstat.cache.gz"

/-- Result of one fstatat call: the fields LocalDirReadJob uses. -/
structure StatInfo where
  isDir : Bool
  dev : Nat
  ino : Nat
  mode : Nat
  size : Nat
  mtime : Nat
deriving DecidableEq, Repr

/-- A child node as inserted into the directory being read. -/
structure ChildNode where
  name : String
  isDir : Bool
  ino : Nat
  mode : Nat
  size : Nat
  mtime : Nat
  readState : ReadState
deriving DecidableEq, Repr

/-- Embedding of QMultiMap::insert on the (inode, name) entry map of
LocalDirReadJob::startReading: keys are kept sorted; a new entry is
placed before existing entries with the same key, and duplicates are
always kept. -/
def multiMapInsert (k : Nat) (v : String) : List (Nat × String) → List (Nat × String)
  | [] => [(k, v)]
  | p :: rest => if k ≤ p.1 then (k, v) :: p :: rest else p :: multiMapInsert k v rest

/-- The readdir loop of LocalDirReadJob::startReading (DirReadJob.cpp
lines 201-223): insert every entry (already filtered of "." and "..")
into the inode-keyed multimap. -/
def buildEntryMapFrom (m : List (Nat × String)) : List (Nat × String) → List (Nat × String)
  | [] => m
  | p :: rest => buildEntryMapFrom (multiMapInsert p.1 p.2 m) rest

/-- The entry map built from a readdir entry list. -/
def buildEntryMap (entries : List (Nat × String)) : List (Nat × String) :=
  buildEntryMapFrom [] entries

/-- The child node created for one entry of the map, depending on the
fstatat outcome: a DirInfo child for a directory (initial state
DirQueued), a FileInfo child otherwise, and — embedding
LocalDirReadJob::handleLstatError (DirReadJob.cpp lines 417-435) — a
placeholder DirInfo with zero mode, size and mtime in state DirError
when the stat failed. -/
def childOf (stat : String → Option StatInfo) (p : Nat × String) : ChildNode :=
  match stat p.2 with
  | some info =>
    if info.isDir then
      { name := p.2, isDir := true, ino := info.ino, mode := info.mode
        size := info.size, mtime := info.mtime, readState := ReadState.DirQueued }
    else
      { name := p.2, isDir := false, ino := info.ino, mode := info.mode
        size := info.size, mtime := info.mtime, readState := ReadState.DirFinished }
  | none =>
    { name := p.2, isDir := true, ino := 0, mode := 0
      size := 0, mtime := 0, readState := ReadState.DirError }

/-- The foreach loop of LocalDirReadJob::startReading (DirReadJob.cpp
lines 224-262) projected onto the child list of the directory being
read: iterate the entry map in order; on a stat failure insert the
placeholder of handleLstatError and continue; a non-directory entry
named like the cache file first tries cache preemption (`cachePreempts`
tells whether readCacheFile succeeds) and, on success, the job returns
immediately (second component true); otherwise the entry becomes a
regular child. -/
def processEntries (stat : String → Option StatInfo) (cachePreempts : Bool) :
    List (Nat × String) → List ChildNode → List ChildNode × Bool
  | [], acc => (acc, false)
  | p :: rest, acc =>
    match stat p.2 with
    | some info =>
      if info.isDir then
        processEntries stat cachePreempts rest (acc ++ [childOf stat p])
      else if p.2 = DEFAULT_CACHE_NAME ∧ cachePreempts = true then
        (acc, true)
      else
        processEntries stat cachePreempts rest (acc ++ [childOf stat p])
    | none => processEntries stat cachePreempts rest (acc ++ [childOf stat p])

/-- The children of a directory after LocalDirReadJob::startReading
enumerated `entries` and processed them in entry-map order. -/
def startReadingChildren (stat : String → Option StatInfo) (cachePreempts : Bool)
    (entries : List (Nat × String)) : List ChildNode × Bool :=
  processEntries stat cachePreempts (buildEntryMap entries) []

/-- Embedding of a PkgInfo as PkgReader sees it: base name, version,
architecture, current display name and the multi-version / multi-arch
flags. -/
structure PkgInfo where
  baseName : String
  version : String
  arch : String
  name : String
  multiVersion : Bool
  multiArch : Bool
deriving DecidableEq, Repr

/-- The same-version test of PkgReader::createDisplayName (PkgReader.cpp
lines 102-115): compare every later member of the group with the first. -/
def groupSameVersion : List PkgInfo → Bool
  | [] => true
  | first :: rest => rest.all (fun p => p.version == first.version)

/-- The same-arch test of PkgReader::createDisplayName. -/
def groupSameArch : List PkgInfo → Bool
  | [] => true
  | first :: rest => rest.all (fun p => p.arch == first.arch)

/-- The per-package effect of PkgReader::createDisplayName (PkgReader.cpp
lines 95-143) given the package group sharing its base name: groups of
fewer than two members are left untouched; otherwise the display name is
rebuilt from the base name, appending "-version" (and setting
multiVersion) when the versions differ and ":arch" (and setting
multiArch) when the architectures differ. -/
def displayTransform (group : List PkgInfo) (pkg : PkgInfo) : PkgInfo :=
  if group.length < 2 then pkg
  else
    let sameVersion := groupSameVersion group
    let sameArch := groupSameArch group
    { pkg with
      name := pkg.baseName
              ++ (if sameVersion then "" else "-" ++ pkg.version)
              ++ (if sameArch then "" else ":" ++ pkg.arch)
      multiVersion := if sameVersion then pkg.multiVersion else true
      multiArch := if sameArch then pkg.multiArch else true }

/-- The group of packages sharing a base name, as the QMultiMap in
PkgReader::handleMultiPkg (PkgReader.cpp lines 79-92) collects it.  The
within-group order does not affect the result: the same-version and
same-arch tests are equivalent to all-pairs equality. -/
def pkgGroup (pkgs : List PkgInfo) (bn : String) : List PkgInfo :=
  pkgs.filter (fun p => p.baseName == bn)

/-- Embedding of PkgReader::handleMultiPkg (PkgReader.cpp lines 79-92):
every package is renamed by createDisplayName according to the group
sharing its base name. -/
def handleMultiPkg (pkgs : List PkgInfo) : List PkgInfo :=
  pkgs.map (fun p => displayTransform (pkgGroup pkgs p.baseName) p)

/-- Embedding of QProcess::ExitStatus. -/
inductive ExitStatus where
  | NormalExit
  | CrashExit
deriving DecidableEq, Repr

/-- Observable outcome of PkgReadJob::readFileListFinished on the job:
whether the process outcome was accepted, the parsed file list, the read
state the package node was set to (none when untouched), and whether
readJobFinished was published / finished() called. -/
structure PkgReadResult where
  ok : Bool
  fileList : List String
  pkgReadState : Option ReadState
  readJobFinishedSent : Bool
  finishedCalled : Bool
deriving DecidableEq, Repr

/-- Embedding of PkgReadJob::readFileListFinished (PkgReader.cpp lines
269-307).  The two sequential checks of the source amount to: ok iff the
exit status is NormalExit and the exit code is 0.  On success the
process output is read and parsed and `_tree->unblock(this)`
(DirTree::unblock forwards to the queue, modelled as `unblock`) moves
the job to the runnable queue.  On failure the package is set to
DirError, readJobFinished is published and `finished()` is called, which
is DirReadJobQueue::jobFinishedNotify on this job. -/
def readFileListFinished (exitCode : Int) (exitStatus : ExitStatus)
    (parseFileList : String → List String) (processOutput : String)
    (job : DirReadJob) (s : QueueState) : QueueState × List Signal × PkgReadResult :=
  if exitStatus = ExitStatus.NormalExit ∧ exitCode = 0 then
    let r := unblock job s
    (r.1, r.2,
     { ok := true, fileList := parseFileList processOutput, pkgReadState := none
       readJobFinishedSent := false, finishedCalled := false })
  else
    let r := jobFinishedNotify job.jid s
    (r.1, r.2,
     { ok := false, fileList := [], pkgReadState := some ReadState.DirError
       readJobFinishedSent := true, finishedCalled := true })

end QDirStat

namespace QDirStat

theorem enqueue_blocked (job : DirReadJob) (s : QueueState) :
    (enqueue job s).1.blocked = s.blocked := by
  unfold enqueue; split <;> rfl

theorem enqueue_no_finished (job : DirReadJob) (s : QueueState) :
    Signal.finished ∉ (enqueue job s).2 := by
  unfold enqueue; split <;> simp

theorem jobFinishedNotify_queue (j : Nat) (s : QueueState) :
    (jobFinishedNotify j s).1.queue = removeOne j s.queue := by
  unfold jobFinishedNotify
  by_cases hq : removeOne j s.queue = [] <;> simp [hq]

theorem jobFinishedNotify_blocked (j : Nat) (s : QueueState) :
    (jobFinishedNotify j s).1.blocked = s.blocked := by
  unfold jobFinishedNotify
  by_cases hq : removeOne j s.queue = [] <;> simp [hq]

theorem jobFinishedNotify_emits (j : Nat) (s : QueueState)
    (hq : removeOne j s.queue = []) (hb : s.blocked = []) :
    (jobFinishedNotify j s).2 = [Signal.finished] := by
  unfold jobFinishedNotify
  simp [hq, hb]

theorem jobFinishedNotify_silent_of_blocked_ne (j : Nat) (s : QueueState)
    (hb : s.blocked ≠ []) : (jobFinishedNotify j s).2 = [] := by
  unfold jobFinishedNotify
  by_cases hq : removeOne j s.queue = [] <;> simp [hq, hb]

theorem unblock_blocked (job : DirReadJob) (s : QueueState) :
    (unblock job s).1.blocked = s.blocked.filter (fun e => e.jid != job.jid) := by
  unfold unblock
  rw [enqueue_blocked]

theorem unblock_no_finished (job : DirReadJob) (s : QueueState) :
    Signal.finished ∉ (unblock job s).2 := by
  unfold unblock
  exact enqueue_no_finished _ _

theorem runEvents_append (s : QueueState) (l1 l2 : List QEvent) :
    runEvents s (l1 ++ l2) =
      ((runEvents (runEvents s l1).1 l2).1,
       (runEvents s l1).2 ++ (runEvents (runEvents s l1).1 l2).2) := by
  induction l1 generalizing s with
  | nil => simp [runEvents]
  | cons e es ih =>
    have h := ih (qstep s e).1
    simp only [List.cons_append, runEvents, List.append_eq]
    rw [h]
    simp [List.append_assoc]

/-- C1: the startingReading signal is emitted exactly when a job is
enqueued while the timer is idle; the finished signal is emitted exactly
when, after a finished() notification, the runnable queue is empty and
the blocked list is also empty; and for every scan that ends — every
event trace whose last event is the finish notification that leaves both
the runnable queue and the blocked list empty — finished is emitted. -/
theorem c1_queue_signals (s : QueueState) (job : DirReadJob) (j : Nat) :
    ((enqueue job s).2 = [Signal.startingReading] ↔ s.timerActive = false) ∧
    ((jobFinishedNotify j s).2 = [Signal.finished] ↔
       removeOne j s.queue = [] ∧ s.blocked = []) ∧
    (∀ (pre : List QEvent) (j2 : Nat),
       (runEvents s (pre ++ [QEvent.finishNotifyEv j2])).1.queue = [] →
       (runEvents s (pre ++ [QEvent.finishNotifyEv j2])).1.blocked = [] →
       Signal.finished ∈ (runEvents s (pre ++ [QEvent.finishNotifyEv j2])).2) := by
  refine ⟨?_, ?_, ?_⟩
  · unfold enqueue
    cases h : s.timerActive <;> simp [h]
  · unfold jobFinishedNotify
    by_cases hq : removeOne j s.queue = [] <;> by_cases hb : s.blocked = [] <;>
      simp [hq, hb]
  · intro pre j2 hq hb
    rw [runEvents_append] at hq hb ⊢
    have hlast : runEvents (runEvents s pre).1 [QEvent.finishNotifyEv j2]
        = ((jobFinishedNotify j2 (runEvents s pre).1).1,
           (jobFinishedNotify j2 (runEvents s pre).1).2 ++ []) := rfl
    rw [hlast] at hq hb ⊢
    rw [jobFinishedNotify_queue] at hq
    rw [jobFinishedNotify_blocked] at hb
    refine List.mem_append_right _ ?_
    rw [jobFinishedNotify_emits j2 _ hq hb]
    simp

/-- Witness for C1: a one-job scan emits finished at its last finish
notification. -/
theorem c1_witness :
    Signal.finished ∈ (runEvents { queue := [], blocked := [], timerActive := false }
      [QEvent.enqueueEv { jid := 1, dir := none }, QEvent.finishNotifyEv 1]).2 :=
  (c1_queue_signals { queue := [], blocked := [], timerActive := false }
      { jid := 1, dir := none } 1).2.2
    [QEvent.enqueueEv { jid := 1, dir := none }] 1 (by decide) (by decide)

theorem qstep_blocked_dead (s : QueueState) (ev : QEvent) (dead : Nat)
    (h : ∃ e ∈ s.blocked, e.jid = dead)
    (hev : ∀ job : DirReadJob, ev = QEvent.unblockEv job → job.jid ≠ dead) :
    (∃ e ∈ (qstep s ev).1.blocked, e.jid = dead) ∧
    Signal.finished ∉ (qstep s ev).2 := by
  obtain ⟨e, hmem, hjid⟩ := h
  cases ev with
  | enqueueEv job =>
    refine ⟨?_, enqueue_no_finished job s⟩
    show ∃ x ∈ (enqueue job s).1.blocked, x.jid = dead
    rw [enqueue_blocked]
    exact ⟨e, hmem, hjid⟩
  | finishNotifyEv j =>
    constructor
    · show ∃ x ∈ (jobFinishedNotify j s).1.blocked, x.jid = dead
      rw [jobFinishedNotify_blocked]
      exact ⟨e, hmem, hjid⟩
    · show Signal.finished ∉ (jobFinishedNotify j s).2
      rw [jobFinishedNotify_silent_of_blocked_ne j s (List.ne_nil_of_mem hmem)]
      simp
  | addBlockedEv job =>
    refine ⟨⟨e, ?_, hjid⟩, by simp [qstep]⟩
    show e ∈ s.blocked ++ [job]
    exact List.mem_append_left _ hmem
  | unblockEv job =>
    have hne : job.jid ≠ dead := hev job rfl
    constructor
    · show ∃ x ∈ (unblock job s).1.blocked, x.jid = dead
      rw [unblock_blocked]
      refine ⟨e, List.mem_filter.mpr ⟨hmem, ?_⟩, hjid⟩
      simp only [bne_iff_ne, ne_eq]
      rw [hjid]
      exact fun hc => hne hc.symm
    · exact unblock_no_finished job s

theorem runEvents_blocked_dead : ∀ (events : List QEvent) (s : QueueState) (dead : Nat),
    (∃ e ∈ s.blocked, e.jid = dead) →
    (∀ ev ∈ events, ∀ job : DirReadJob, ev = QEvent.unblockEv job → job.jid ≠ dead) →
    (∃ e ∈ (runEvents s events).1.blocked, e.jid = dead) ∧
    Signal.finished ∉ (runEvents s events).2 := by
  intro events
  induction events with
  | nil =>
    intro s dead h _
    exact ⟨h, by simp [runEvents]⟩
  | cons e es ih =>
    intro s dead h hev
    have h1 := qstep_blocked_dead s e dead h
      (fun job hj => hev e (List.mem_cons_self e es) job hj)
    have h2 := ih (qstep s e).1 dead h1.1
      (fun ev hm job hj => hev ev (List.mem_cons_of_mem e hm) job hj)
    refine ⟨h2.1, ?_⟩
    have hsig : (runEvents s (e :: es)).2
        = (qstep s e).2 ++ (runEvents (qstep s e).1 es).2 := rfl
    rw [hsig]
    intro hmem
    rcases List.mem_append.mp hmem with hc | hc
    · exact h1.2 hc
    · exact h2.2 hc

/-- C10: jobFinishedNotify removes the finished job from the runnable
queue only and never touches the blocked list; hence once a job that
sits in the blocked list is finished and deleted (as a PkgReadJob is
when its file-list process fails), its entry stays in the blocked list
through any further events that never unblock that dead job, the blocked
list never becomes empty, and the finished signal is never emitted. -/
theorem c10_blocked_leak (s : QueueState) (j : Nat) (events : List QEvent) (dead : Nat) :
    ((jobFinishedNotify j s).1.blocked = s.blocked) ∧
    (∀ (ec : Int) (es2 : ExitStatus) (parse : String → List String) (out : String)
       (job2 : DirReadJob), ¬(es2 = ExitStatus.NormalExit ∧ ec = 0) →
       job2 ∈ s.blocked →
       job2 ∈ (readFileListFinished ec es2 parse out job2 s).1.blocked) ∧
    ((∃ e ∈ s.blocked, e.jid = dead) →
     (∀ ev ∈ events, ∀ job : DirReadJob, ev = QEvent.unblockEv job → job.jid ≠ dead) →
     (∃ e ∈ (runEvents s events).1.blocked, e.jid = dead) ∧
     (runEvents s events).1.blocked ≠ [] ∧
     Signal.finished ∉ (runEvents s events).2) := by
  refine ⟨jobFinishedNotify_blocked j s, ?_, ?_⟩
  · intro ec es2 parse out job2 hfail hmem
    unfold readFileListFinished
    simp only [hfail, if_false]
    show job2 ∈ (jobFinishedNotify job2.jid s).1.blocked
    rw [jobFinishedNotify_blocked]
    exact hmem
  · intro h hev
    have h2 := runEvents_blocked_dead events s dead h hev
    obtain ⟨e, he, _⟩ := h2.1
    exact ⟨h2.1, List.ne_nil_of_mem he, h2.2⟩

/-- Witness for C10: a blocked package job whose process failed calls
finished(); its entry stays in the blocked list and finished is never
emitted. -/
theorem c10_witness :
    (∃ e ∈ (runEvents { queue := [], blocked := [{ jid := 7, dir := some 3 }], timerActive := true }
        [QEvent.finishNotifyEv 7]).1.blocked, e.jid = 7) ∧
    (runEvents { queue := [], blocked := [{ jid := 7, dir := some 3 }], timerActive := true }
        [QEvent.finishNotifyEv 7]).1.blocked ≠ [] ∧
    Signal.finished ∉ (runEvents { queue := [], blocked := [{ jid := 7, dir := some 3 }], timerActive := true }
        [QEvent.finishNotifyEv 7]).2 :=
  (c10_blocked_leak { queue := [], blocked := [{ jid := 7, dir := some 3 }], timerActive := true }
      7 [QEvent.finishNotifyEv 7] 7).2.2
    (by decide)
    (by
      intro ev hm job hj
      have : ev = QEvent.finishNotifyEv 7 := by
        simpa using hm
      rw [this] at hj
      cases hj)

theorem enqueue_queue (job : DirReadJob) (s : QueueState) :
    (enqueue job s).1.queue = s.queue ++ [job] := by
  unfold enqueue; split <;> rfl

theorem isInSubtree_self (parentOf : Nat → Option Nat) (fuel : Nat) (n : Nat)
    (h : 1 ≤ fuel) : isInSubtree parentOf fuel n n = true := by
  cases fuel with
  | zero => exact absurd h (by simp)
  | succ f => simp [isInSubtree]

/-- C2: on a cache file whose firstDir equals the directory being read,
with that directory not at top level, readCacheFile enqueues a cache job
bound to the parent with a rewound reader, sets the parent to
DirReading, kills every job bound inside the directory except the cache
job — the current LocalDirReadJob included — deletes the subtree, and
returns true; on a firstDir mismatch it discards the reader, changes
nothing and returns false. -/
theorem c2_cache_preemption (parentOf : Nat → Option Nat) (fuel : Nat) (qs : QueueState)
    (nodes : List Nat) (readState : Nat → ReadState) (d : Nat)
    (dirName firstDirInCache : String) (cjid posAfterHeader : Nat)
    (p : Nat) (curJid : Nat) :
    ((readCacheFile parentOf fuel qs nodes readState d dirName dirName false
        cjid posAfterHeader).preempted = true ∧
     ({ jid := cjid, dir := parentOf d } : DirReadJob) ∈
        (readCacheFile parentOf fuel qs nodes readState d dirName dirName false
          cjid posAfterHeader).qs.queue ∧
     (readCacheFile parentOf fuel qs nodes readState d dirName dirName false
        cjid posAfterHeader).readerPos = 0 ∧
     (readCacheFile parentOf fuel qs nodes readState d dirName dirName false
        cjid posAfterHeader).readerKept = true ∧
     (parentOf d = some p →
       (readCacheFile parentOf fuel qs nodes readState d dirName dirName false
         cjid posAfterHeader).readState p = ReadState.DirReading) ∧
     (∀ job ∈ (readCacheFile parentOf fuel qs nodes readState d dirName dirName false
         cjid posAfterHeader).qs.queue, job.jid ≠ cjid →
       ∀ dd, job.dir = some dd → isInSubtree parentOf fuel dd d = false) ∧
     (∀ job ∈ (readCacheFile parentOf fuel qs nodes readState d dirName dirName false
         cjid posAfterHeader).qs.blocked, job.jid ≠ cjid →
       ∀ dd, job.dir = some dd → isInSubtree parentOf fuel dd d = false) ∧
     (curJid ≠ cjid → 1 ≤ fuel →
       ({ jid := curJid, dir := some d } : DirReadJob) ∉
         (readCacheFile parentOf fuel qs nodes readState d dirName dirName false
           cjid posAfterHeader).qs.queue ∧
       ({ jid := curJid, dir := some d } : DirReadJob) ∉
         (readCacheFile parentOf fuel qs nodes readState d dirName dirName false
           cjid posAfterHeader).qs.blocked) ∧
     (∀ n ∈ (readCacheFile parentOf fuel qs nodes readState d dirName dirName false
         cjid posAfterHeader).nodes, isInSubtree parentOf fuel n d = false)) ∧
    (firstDirInCache ≠ dirName →
      readCacheFile parentOf fuel qs nodes readState d dirName firstDirInCache false
          cjid posAfterHeader =
        { preempted := false, qs := qs, signals := [], nodes := nodes
          readState := readState, readerPos := posAfterHeader, readerKept := false }) := by
  constructor
  · unfold readCacheFile
    simp only [if_pos rfl, Bool.false_eq_true, if_false]
    refine ⟨rfl, ?_, rfl, rfl, ?_, ?_, ?_, ?_, ?_⟩
    · show _ ∈ (killAll parentOf fuel d (some cjid)
        (enqueue { jid := cjid, dir := parentOf d } qs).1).queue
      refine List.mem_filter.mpr ⟨?_, ?_⟩
      · rw [enqueue_queue]
        exact List.mem_append_right _ (List.mem_singleton.mpr rfl)
      · unfold keepJob
        simp
    · intro hp
      show (match parentOf d with
            | some q => fun n => if n = q then ReadState.DirReading else readState n
            | none => readState) p = ReadState.DirReading
      rw [hp]
      simp
    · intro job hmem hnjid dd hdd
      have hkeep := (List.mem_filter.mp hmem).2
      unfold keepJob at hkeep
      rw [if_neg (fun hc => hnjid (Option.some.inj hc).symm)] at hkeep
      rw [hdd] at hkeep
      simpa using hkeep
    · intro job hmem hnjid dd hdd
      have hkeep := (List.mem_filter.mp hmem).2
      unfold keepJob at hkeep
      rw [if_neg (fun hc => hnjid (Option.some.inj hc).symm)] at hkeep
      rw [hdd] at hkeep
      simpa using hkeep
    · intro hne hfuel
      have hself := isInSubtree_self parentOf fuel d hfuel
      constructor
      · intro hmem
        have hkeep := (List.mem_filter.mp hmem).2
        unfold keepJob at hkeep
        rw [if_neg (fun hc => hne (Option.some.inj hc).symm)] at hkeep
        simp [hself] at hkeep
      · intro hmem
        have hkeep := (List.mem_filter.mp hmem).2
        unfold keepJob at hkeep
        rw [if_neg (fun hc => hne (Option.some.inj hc).symm)] at hkeep
        simp [hself] at hkeep
    · intro n hmem
      have hkeep := (List.mem_filter.mp hmem).2
      simpa using hkeep
  · intro hne
    unfold readCacheFile
    rw [if_neg hne]

/-- Witness for C2: a concrete preemption in a three-node tree kills the
running local job, enqueues the cache job and marks the parent reading;
with a mismatching firstDir nothing happens. -/
theorem c2_witness :
    (readCacheFile (fun n => if n = 2 then some 1 else if n = 3 then some 2 else none) 3
        { queue := [{ jid := 10, dir := some 2 }, { jid := 11, dir := some 3 }]
          blocked := [], timerActive := true }
        [1, 2, 3] (fun _ => ReadState.DirQueued) 2 "/t/m" "/t/m" false 99 5).preempted = true ∧
    ({ jid := 99, dir := some 1 } : DirReadJob) ∈
      (readCacheFile (fun n => if n = 2 then some 1 else if n = 3 then some 2 else none) 3
        { queue := [{ jid := 10, dir := some 2 }, { jid := 11, dir := some 3 }]
          blocked := [], timerActive := true }
        [1, 2, 3] (fun _ => ReadState.DirQueued) 2 "/t/m" "/t/m" false 99 5).qs.queue ∧
    (readCacheFile (fun n => if n = 2 then some 1 else if n = 3 then some 2 else none) 3
        { queue := [{ jid := 10, dir := some 2 }, { jid := 11, dir := some 3 }]
          blocked := [], timerActive := true }
        [1, 2, 3] (fun _ => ReadState.DirQueued) 2 "/t/m" "/t/m" false 99 5).readState 1
      = ReadState.DirReading ∧
    ({ jid := 10, dir := some 2 } : DirReadJob) ∉
      (readCacheFile (fun n => if n = 2 then some 1 else if n = 3 then some 2 else none) 3
        { queue := [{ jid := 10, dir := some 2 }, { jid := 11, dir := some 3 }]
          blocked := [], timerActive := true }
        [1, 2, 3] (fun _ => ReadState.DirQueued) 2 "/t/m" "/t/m" false 99 5).qs.queue ∧
    (readCacheFile (fun n => if n = 2 then some 1 else if n = 3 then some 2 else none) 3
        { queue := [{ jid := 10, dir := some 2 }, { jid := 11, dir := some 3 }]
          blocked := [], timerActive := true }
        [1, 2, 3] (fun _ => ReadState.DirQueued) 2 "/t/m" "/x" false 99 5).preempted = false := by
  have h := c2_cache_preemption
      (fun n => if n = 2 then some 1 else if n = 3 then some 2 else none) 3
      { queue := [{ jid := 10, dir := some 2 }, { jid := 11, dir := some 3 }]
        blocked := [], timerActive := true }
      [1, 2, 3] (fun _ => ReadState.DirQueued) 2 "/t/m" "/x" 99 5 1 10
  refine ⟨h.1.1, h.1.2.1, h.1.2.2.2.2.1 (by decide),
    (h.1.2.2.2.2.2.2.2.1 (by decide) (by decide)).1, ?_⟩
  rw [h.2 (by decide)]

theorem crossingFileSystems_same_dev (pd : Nat) (cds pmds tds : String) :
    crossingFileSystems pd pd cds pmds tds = false := by
  unfold crossingFileSystems
  simp

theorem crossingFileSystems_dev_ne (pd cd : Nat) (cds pmds tds : String)
    (h : crossingFileSystems pd cd cds pmds tds = true) : pd ≠ cd := by
  intro hc
  rw [hc, crossingFileSystems_same_dev] at h
  cases h

/-- C5: for every subdirectory child, an exclude-rule match marks it
excluded with state DirOnRequestOnly and enqueues no job; with no match
and the same device a LocalDirReadJob is enqueued with the
apply-child-file-exclude-rules flag; with no match across a filesystem
boundary the child is flagged mount point and a job is enqueued exactly
when cross-filesystem traversal is enabled, else it is finalized
DirOnRequestOnly. -/
theorem c5_process_sub_dir (rules : String → String → Bool) (fullPath baseName : String)
    (pd cd : Nat) (cds pmds tds : String) (crossFs : Bool) :
    (rules fullPath baseName = true →
      (processSubDir rules fullPath baseName pd cd cds pmds tds crossFs).excluded = true ∧
      (processSubDir rules fullPath baseName pd cd cds pmds tds crossFs).readState
        = ReadState.DirOnRequestOnly ∧
      (processSubDir rules fullPath baseName pd cd cds pmds tds crossFs).jobEnqueued = false) ∧
    (rules fullPath baseName = false → pd = cd →
      (processSubDir rules fullPath baseName pd cd cds pmds tds crossFs).jobEnqueued = true ∧
      (processSubDir rules fullPath baseName pd cd cds pmds tds crossFs).jobApplyFlag = true ∧
      (processSubDir rules fullPath baseName pd cd cds pmds tds crossFs).mountPoint = false) ∧
    (rules fullPath baseName = false →
      crossingFileSystems pd cd cds pmds tds = true →
      (processSubDir rules fullPath baseName pd cd cds pmds tds crossFs).mountPoint = true ∧
      (crossFs = true →
        (processSubDir rules fullPath baseName pd cd cds pmds tds crossFs).jobEnqueued = true ∧
        (processSubDir rules fullPath baseName pd cd cds pmds tds crossFs).jobApplyFlag = true) ∧
      (crossFs = false →
        (processSubDir rules fullPath baseName pd cd cds pmds tds crossFs).jobEnqueued = false ∧
        (processSubDir rules fullPath baseName pd cd cds pmds tds crossFs).readState
          = ReadState.DirOnRequestOnly)) := by
  refine ⟨?_, ?_, ?_⟩
  · intro hr
    simp [processSubDir, hr]
  · intro hr hdev
    subst hdev
    simp [processSubDir, hr, crossingFileSystems_same_dev]
  · intro hr hcross
    cases crossFs <;> simp [processSubDir, hr, hcross]

/-- Witness for C5: the three branches at concrete inputs — a matched
rule, a same-device child, and a crossing child with cross-filesystem
traversal disabled. -/
theorem c5_witness :
    (processSubDir (fun _ _ => true) "/t/a" "a" 1 1 "" "" "" true).excluded = true ∧
    (processSubDir (fun _ _ => false) "/t/b" "b" 1 1 "" "" "" true).jobEnqueued = true ∧
    (processSubDir (fun _ _ => false) "/t/c" "c" 1 2 "/dev/sdb1" "/dev/sda1" "" false).readState
      = ReadState.DirOnRequestOnly :=
  ⟨((c5_process_sub_dir (fun _ _ => true) "/t/a" "a" 1 1 "" "" "" true).1 rfl).1,
   ((c5_process_sub_dir (fun _ _ => false) "/t/b" "b" 1 1 "" "" "" true).2.1 rfl rfl).1,
   (((c5_process_sub_dir (fun _ _ => false) "/t/c" "c" 1 2 "/dev/sdb1" "/dev/sda1" "" false).2.2
      rfl (by decide)).2.2 rfl).2⟩

/-- Counterexample for C3 as stated: the stat devices differ (1 versus
2) but the mount-table device strings agree, so crossingFileSystems
returns false: the child is not flagged as a mount point, and even
though cross-filesystem traversal is disabled a read job is enqueued for
it and its state is not DirOnRequestOnly. -/
theorem c3_counterexample :
    (processSubDir (fun _ _ => false) "/t/m" "m" 1 2 "/dev/sda1" "/dev/sda1" "" false).mountPoint
      = false ∧
    (processSubDir (fun _ _ => false) "/t/m" "m" 1 2 "/dev/sda1" "/dev/sda1" "" false).jobEnqueued
      = true ∧
    (processSubDir (fun _ _ => false) "/t/m" "m" 1 2 "/dev/sda1" "/dev/sda1" "" false).readState
      ≠ ReadState.DirOnRequestOnly ∧
    (1 : Nat) ≠ 2 := by
  decide

/-- C3 (amended): for a subdirectory child that no exclude rule matches,
the child is flagged as a mount point exactly when the full
crossingFileSystems check holds — which requires the stat dev fields to
differ — and when such a crossing child is met with cross-filesystem
traversal disabled, its state is DirOnRequestOnly and no job is
enqueued for it. -/
theorem c3_mount_point_flagging (rules : String → String → Bool) (fullPath baseName : String)
    (pd cd : Nat) (cds pmds tds : String) (crossFs : Bool)
    (hr : rules fullPath baseName = false) :
    ((processSubDir rules fullPath baseName pd cd cds pmds tds crossFs).mountPoint = true ↔
      crossingFileSystems pd cd cds pmds tds = true) ∧
    ((processSubDir rules fullPath baseName pd cd cds pmds tds crossFs).mountPoint = true →
      pd ≠ cd) ∧
    (crossingFileSystems pd cd cds pmds tds = true → crossFs = false →
      (processSubDir rules fullPath baseName pd cd cds pmds tds crossFs).readState
        = ReadState.DirOnRequestOnly ∧
      (processSubDir rules fullPath baseName pd cd cds pmds tds crossFs).jobEnqueued = false) := by
  refine ⟨?_, ?_, ?_⟩
  · cases hcross : crossingFileSystems pd cd cds pmds tds
    · cases crossFs <;> simp [processSubDir, hr, hcross]
    · cases crossFs <;> simp [processSubDir, hr, hcross]
  · intro hmp
    cases hcross : crossingFileSystems pd cd cds pmds tds
    · cases crossFs <;> simp [processSubDir, hr, hcross] at hmp
    · exact crossingFileSystems_dev_ne pd cd cds pmds tds hcross
  · intro hcross hcf
    subst hcf
    simp [processSubDir, hr, hcross]

/-- Witness for C3 (amended): a child with differing stat devices and
differing device strings is flagged as a mount point and, with cross-fs
traversal disabled, left DirOnRequestOnly. -/
theorem c3_witness :
    (processSubDir (fun _ _ => false) "/t/m" "m" 1 2 "/dev/sdb1" "/dev/sda1" "" false).mountPoint
      = true ∧
    (processSubDir (fun _ _ => false) "/t/m" "m" 1 2 "/dev/sdb1" "/dev/sda1" "" false).readState
      = ReadState.DirOnRequestOnly := by
  have h := c3_mount_point_flagging (fun _ _ => false) "/t/m" "m" 1 2 "/dev/sdb1" "/dev/sda1" ""
      false rfl
  exact ⟨h.1.mpr (by decide), (h.2.2 (by decide) rfl).1⟩

/-- C4: evaluating CacheReadJob::read on a job whose reader is null —
the control flow of the source calls finished(), which deletes the job,
and then still executes the dereference of the null reader; the claim
and the comments of the source say reading must stop at finished(). -/
theorem c4_null_reader_deref :
    cacheReadJobRead none =
      (true, Except.error "null _reader dereferenced in _reader->read(1000)") := rfl

theorem mem_removeOne (j : Nat) (l : List DirReadJob) (x : DirReadJob)
    (h : x ∈ removeOne j l) : x ∈ l := by
  induction l with
  | nil => simp [removeOne] at h
  | cons a as ih =>
    unfold removeOne at h
    by_cases ha : a.jid = j
    · rw [if_pos ha] at h
      exact List.mem_cons_of_mem a h
    · rw [if_neg ha] at h
      rcases List.mem_cons.mp h with h1 | h1
      · rw [h1]
        exact List.mem_cons_self a as
      · exact List.mem_cons_of_mem a (ih h1)

/-- C7: a PkgReadJob whose file-list process finished is moved to the
runnable queue exactly when the exit status is NormalExit and the exit
code is 0, in which case the process output is parsed into the file
list and the job leaves the blocked list; on any other outcome the
package is set to DirError, readJobFinished is published and finished()
is called without the job ever reaching the runnable queue. -/
theorem c7_file_list_outcome (ec : Int) (es : ExitStatus) (parse : String → List String)
    (out : String) (job : DirReadJob) (s : QueueState)
    (hq : job ∉ s.queue) :
    ((job ∈ (readFileListFinished ec es parse out job s).1.queue) ↔
      (es = ExitStatus.NormalExit ∧ ec = 0)) ∧
    (es = ExitStatus.NormalExit ∧ ec = 0 →
      (readFileListFinished ec es parse out job s).2.2.fileList = parse out ∧
      (readFileListFinished ec es parse out job s).2.2.ok = true ∧
      (∀ e ∈ (readFileListFinished ec es parse out job s).1.blocked, e.jid ≠ job.jid)) ∧
    (¬(es = ExitStatus.NormalExit ∧ ec = 0) →
      (readFileListFinished ec es parse out job s).2.2.pkgReadState
        = some ReadState.DirError ∧
      (readFileListFinished ec es parse out job s).2.2.readJobFinishedSent = true ∧
      (readFileListFinished ec es parse out job s).2.2.finishedCalled = true ∧
      (readFileListFinished ec es parse out job s).2.2.ok = false ∧
      job ∉ (readFileListFinished ec es parse out job s).1.queue) := by
  by_cases hok : es = ExitStatus.NormalExit ∧ ec = 0
  · refine ⟨iff_of_true ?_ hok, fun _ => ⟨?_, ?_, ?_⟩, fun hc => absurd hok hc⟩
    · unfold readFileListFinished
      rw [if_pos hok]
      show job ∈ (unblock job s).1.queue
      unfold unblock
      rw [enqueue_queue]
      exact List.mem_append_right _ (List.mem_singleton.mpr rfl)
    · unfold readFileListFinished
      rw [if_pos hok]
    · unfold readFileListFinished
      rw [if_pos hok]
    · unfold readFileListFinished
      rw [if_pos hok]
      intro e he
      show e.jid ≠ job.jid
      have hf : e ∈ (unblock job s).1.blocked := he
      rw [unblock_blocked] at hf
      have := (List.mem_filter.mp hf).2
      simpa [bne_iff_ne] using this
  · have hnotin : job ∉ (readFileListFinished ec es parse out job s).1.queue := by
      unfold readFileListFinished
      rw [if_neg hok]
      intro hmem
      have : job ∈ (jobFinishedNotify job.jid s).1.queue := hmem
      rw [jobFinishedNotify_queue] at this
      exact hq (mem_removeOne job.jid s.queue job this)
    refine ⟨iff_of_false hnotin hok, fun hc => absurd hc hok, fun _ => ⟨?_, ?_, ?_, ?_, hnotin⟩⟩
    · unfold readFileListFinished
      rw [if_neg hok]
    · unfold readFileListFinished
      rw [if_neg hok]
    · unfold readFileListFinished
      rw [if_neg hok]
    · unfold readFileListFinished
      rw [if_neg hok]

/-- Witness for C7: exit code 0 unblocks the concrete job; exit code 2
leaves the package in DirError with the job never unblocked. -/
theorem c7_witness :
    (({ jid := 5, dir := some 4 } : DirReadJob) ∈
      (readFileListFinished 0 ExitStatus.NormalExit (fun o => [o]) "/usr/bin/x"
        { jid := 5, dir := some 4 }
        { queue := [], blocked := [{ jid := 5, dir := some 4 }], timerActive := false }).1.queue) ∧
    (readFileListFinished 0 ExitStatus.NormalExit (fun o => [o]) "/usr/bin/x"
        { jid := 5, dir := some 4 }
        { queue := [], blocked := [{ jid := 5, dir := some 4 }], timerActive := false }).2.2.fileList
      = ["/usr/bin/x"] ∧
    (readFileListFinished 2 ExitStatus.NormalExit (fun o => [o]) ""
        { jid := 5, dir := some 4 }
        { queue := [], blocked := [{ jid := 5, dir := some 4 }], timerActive := false }).2.2.pkgReadState
      = some ReadState.DirError ∧
    (({ jid := 5, dir := some 4 } : DirReadJob) ∉
      (readFileListFinished 2 ExitStatus.NormalExit (fun o => [o]) ""
        { jid := 5, dir := some 4 }
        { queue := [], blocked := [{ jid := 5, dir := some 4 }], timerActive := false }).1.queue) := by
  have hgood := c7_file_list_outcome 0 ExitStatus.NormalExit (fun o => [o]) "/usr/bin/x"
      { jid := 5, dir := some 4 }
      { queue := [], blocked := [{ jid := 5, dir := some 4 }], timerActive := false }
      (by decide)
  have hbad := c7_file_list_outcome 2 ExitStatus.NormalExit (fun o => [o]) ""
      { jid := 5, dir := some 4 }
      { queue := [], blocked := [{ jid := 5, dir := some 4 }], timerActive := false }
      (by decide)
  refine ⟨hgood.1.mpr ⟨rfl, rfl⟩, (hgood.2.1 ⟨rfl, rfl⟩).1, ?_, ?_⟩
  · exact (hbad.2.2 (by intro hc; exact absurd hc.2 (by decide))).1
  · exact (hbad.2.2 (by intro hc; exact absurd hc.2 (by decide))).2.2.2.2

theorem multiMapInsert_perm (k : Nat) (v : String) (m : List (Nat × String)) :
    List.Perm (multiMapInsert k v m) ((k, v) :: m) := by
  induction m with
  | nil => simp [multiMapInsert]
  | cons p rest ih =>
    unfold multiMapInsert
    split
    · exact List.Perm.refl _
    · exact (List.Perm.cons p ih).trans (List.Perm.swap (k, v) p rest)

theorem multiMapInsert_sorted (k : Nat) (v : String) (m : List (Nat × String))
    (h : m.Pairwise (fun a b => a.1 ≤ b.1)) :
    (multiMapInsert k v m).Pairwise (fun a b => a.1 ≤ b.1) := by
  induction m with
  | nil => simp [multiMapInsert]
  | cons p rest ih =>
    rcases List.pairwise_cons.mp h with ⟨hp, hrest⟩
    unfold multiMapInsert
    split
    · rename_i hk
      refine List.pairwise_cons.mpr ⟨?_, h⟩
      intro x hx
      rcases List.mem_cons.mp hx with h1 | h1
      · rw [h1]
        exact hk
      · exact le_trans hk (hp x h1)
    · rename_i hk
      push_neg at hk
      refine List.pairwise_cons.mpr ⟨?_, ih hrest⟩
      intro x hx
      have hx2 := (multiMapInsert_perm k v rest).mem_iff.mp hx
      rcases List.mem_cons.mp hx2 with h1 | h1
      · rw [h1]
        exact le_of_lt hk
      · exact hp x h1

theorem buildEntryMapFrom_perm : ∀ (es m : List (Nat × String)),
    List.Perm (buildEntryMapFrom m es) (m ++ es) := by
  intro es
  induction es with
  | nil => intro m; simp [buildEntryMapFrom]
  | cons p rest ih =>
    intro m
    show List.Perm (buildEntryMapFrom (multiMapInsert p.1 p.2 m) rest) (m ++ p :: rest)
    refine ((ih (multiMapInsert p.1 p.2 m)).trans ?_)
    refine (((multiMapInsert_perm p.1 p.2 m).append_right rest).trans ?_)
    have : ((p.1, p.2) : Nat × String) = p := rfl
    rw [this]
    exact List.perm_middle.symm

theorem buildEntryMapFrom_sorted : ∀ (es m : List (Nat × String)),
    m.Pairwise (fun a b => a.1 ≤ b.1) →
    (buildEntryMapFrom m es).Pairwise (fun a b => a.1 ≤ b.1) := by
  intro es
  induction es with
  | nil => intro m h; exact h
  | cons p rest ih =>
    intro m h
    exact ih (multiMapInsert p.1 p.2 m) (multiMapInsert_sorted p.1 p.2 m h)

theorem buildEntryMap_perm (es : List (Nat × String)) :
    List.Perm (buildEntryMap es) es := by
  simpa using buildEntryMapFrom_perm es []

theorem buildEntryMap_sorted (es : List (Nat × String)) :
    (buildEntryMap es).Pairwise (fun a b => a.1 ≤ b.1) :=
  buildEntryMapFrom_sorted es [] (by simp)

theorem processEntries_no_preempt (stat : String → Option StatInfo) :
    ∀ (l : List (Nat × String)) (acc : List ChildNode),
    processEntries stat false l acc = (acc ++ l.map (childOf stat), false) := by
  intro l
  induction l with
  | nil => intro acc; simp [processEntries]
  | cons p rest ih =>
    intro acc
    cases hstat : stat p.2 with
    | none => simp [processEntries, hstat, ih]
    | some info =>
      cases hdir : info.isDir
      · simp [processEntries, hstat, hdir, ih]
      · simp [processEntries, hstat, hdir, ih]

theorem startReadingChildren_no_preempt (stat : String → Option StatInfo)
    (entries : List (Nat × String)) :
    (startReadingChildren stat false entries).1
      = (buildEntryMap entries).map (childOf stat) := by
  unfold startReadingChildren
  rw [processEntries_no_preempt]
  simp

theorem childOf_name (stat : String → Option StatInfo) (p : Nat × String) :
    (childOf stat p).name = p.2 := by
  unfold childOf
  cases h : stat p.2 with
  | none => simp
  | some info => cases hd : info.isDir <;> simp [hd]

theorem childOf_ino (stat : String → Option StatInfo) (p : Nat × String) (info : StatInfo)
    (h : stat p.2 = some info) (hino : info.ino = p.1) : (childOf stat p).ino = p.1 := by
  unfold childOf
  rw [h]
  cases hd : info.isDir <;> simp [hd, hino]

theorem list_map_id_of_mem {α : Type} (l : List α) (f : α → α)
    (h : ∀ a ∈ l, f a = a) : l.map f = l := by
  induction l with
  | nil => rfl
  | cons a as ih =>
    simp only [List.map_cons]
    rw [h a (List.mem_cons_self a as), ih (fun b hb => h b (List.mem_cons_of_mem a hb))]

/-- C6: when every entry of the scanned directory stats successfully
(with the stat inode agreeing with the readdir inode) and no cache
preemption happens, the children are inserted in non-decreasing inode
order, and the (inode, name) pairs of the children are a permutation of
the readdir entries — entries sharing an inode (hard links) are all
preserved as distinct children, never deduplicated. -/
theorem c6_inode_order (entries : List (Nat × String)) (stat : String → Option StatInfo)
    (h : ∀ p ∈ entries, ∃ info, stat p.2 = some info ∧ info.ino = p.1) :
    List.Pairwise (fun a b => a.ino ≤ b.ino) (startReadingChildren stat false entries).1 ∧
    List.Perm ((startReadingChildren stat false entries).1.map (fun c => (c.ino, c.name)))
      entries := by
  have hrun := startReadingChildren_no_preempt stat entries
  have hmem : ∀ p ∈ buildEntryMap entries, ∃ info, stat p.2 = some info ∧ info.ino = p.1 :=
    fun p hp => h p ((buildEntryMap_perm entries).mem_iff.mp hp)
  constructor
  · rw [hrun, List.pairwise_map]
    refine (buildEntryMap_sorted entries).imp_of_mem ?_
    intro a b ha hb hab
    obtain ⟨ia, hsa, hia⟩ := hmem a ha
    obtain ⟨ib, hsb, hib⟩ := hmem b hb
    rw [childOf_ino stat a ia hsa hia, childOf_ino stat b ib hsb hib]
    exact hab
  · rw [hrun, List.map_map]
    have heq : (buildEntryMap entries).map ((fun c => (c.ino, c.name)) ∘ childOf stat)
        = buildEntryMap entries := by
      refine list_map_id_of_mem _ _ ?_
      intro p hp
      obtain ⟨info, hsi, hino⟩ := hmem p hp
      show ((childOf stat p).ino, (childOf stat p).name) = p
      rw [childOf_ino stat p info hsi hino, childOf_name]
    rw [heq]
    exact buildEntryMap_perm entries

/-- Witness for C6: entries with inodes 10, 5, 5 — two hard links on
inode 5 — come out in inode order 5, 5, 10 with all three preserved. -/
theorem c6_witness :
    List.Pairwise (fun a b => a.ino ≤ b.ino)
      (startReadingChildren
        (fun n => some { isDir := false, dev := 1, ino := if n = "a" then 10 else 5
                         mode := 0, size := 0, mtime := 0 })
        false [(10, "a"), (5, "b"), (5, "c")]).1 ∧
    List.Perm
      ((startReadingChildren
        (fun n => some { isDir := false, dev := 1, ino := if n = "a" then 10 else 5
                         mode := 0, size := 0, mtime := 0 })
        false [(10, "a"), (5, "b"), (5, "c")]).1.map (fun c => (c.ino, c.name)))
      [(10, "a"), (5, "b"), (5, "c")] := by
  refine c6_inode_order [(10, "a"), (5, "b"), (5, "c")]
    (fun n => some { isDir := false, dev := 1, ino := if n = "a" then 10 else 5
                     mode := 0, size := 0, mtime := 0 }) ?_
  intro p hp
  simp only [List.mem_cons, List.not_mem_nil, or_false] at hp
  rcases hp with h1 | h1 | h1 <;> (subst h1; exact ⟨_, rfl, by decide⟩)

/-- C9: an entry whose stat fails yields a placeholder Dir child with
zero size, mode and mtime in state DirError, inserted into the directory
being read; the scan continues — every entry still yields exactly one
child. -/
theorem c9_lstat_error_placeholder (entries : List (Nat × String))
    (stat : String → Option StatInfo) (ino : Nat) (name : String)
    (hmem : (ino, name) ∈ entries) (hfail : stat name = none) :
    (∃ c ∈ (startReadingChildren stat false entries).1,
      c.name = name ∧ c.isDir = true ∧ c.size = 0 ∧ c.mode = 0 ∧ c.mtime = 0 ∧
      c.readState = ReadState.DirError) ∧
    (startReadingChildren stat false entries).1.length = entries.length ∧
    (∀ q ∈ entries, ∃ c ∈ (startReadingChildren stat false entries).1, c.name = q.2) := by
  have hrun := startReadingChildren_no_preempt stat entries
  refine ⟨?_, ?_, ?_⟩
  · rw [hrun]
    have hbm : ((ino, name) : Nat × String) ∈ buildEntryMap entries :=
      (buildEntryMap_perm entries).mem_iff.mpr hmem
    refine ⟨childOf stat (ino, name), List.mem_map_of_mem _ hbm, ?_⟩
    simp [childOf, hfail]
  · rw [hrun, List.length_map]
    exact (buildEntryMap_perm entries).length_eq
  · intro q hq
    rw [hrun]
    have hbm : q ∈ buildEntryMap entries := (buildEntryMap_perm entries).mem_iff.mpr hq
    exact ⟨childOf stat q, List.mem_map_of_mem _ hbm, childOf_name stat q⟩

/-- Witness for C9: a two-entry directory where the stat of "bad" fails
still produces two children, one of them the DirError placeholder. -/
theorem c9_witness :
    (∃ c ∈ (startReadingChildren
        (fun n => if n = "bad" then none
                  else some { isDir := false, dev := 1, ino := 1, mode := 0, size := 0, mtime := 0 })
        false [(1, "good"), (2, "bad")]).1,
      c.name = "bad" ∧ c.isDir = true ∧ c.size = 0 ∧ c.mode = 0 ∧ c.mtime = 0 ∧
      c.readState = ReadState.DirError) ∧
    (startReadingChildren
        (fun n => if n = "bad" then none
                  else some { isDir := false, dev := 1, ino := 1, mode := 0, size := 0, mtime := 0 })
        false [(1, "good"), (2, "bad")]).1.length = 2 :=
  ⟨(c9_lstat_error_placeholder [(1, "good"), (2, "bad")]
      (fun n => if n = "bad" then none
                else some { isDir := false, dev := 1, ino := 1, mode := 0, size := 0, mtime := 0 })
      2 "bad" (by decide) (by decide)).1,
   (c9_lstat_error_placeholder [(1, "good"), (2, "bad")]
      (fun n => if n = "bad" then none
                else some { isDir := false, dev := 1, ino := 1, mode := 0, size := 0, mtime := 0 })
      2 "bad" (by decide) (by decide)).2.1⟩

theorem allRestEq_iff (f : PkgInfo → String) (first : PkgInfo) (rest : List PkgInfo) :
    (rest.all fun p => f p == f first) = true ↔
      ∀ a ∈ first :: rest, ∀ b ∈ first :: rest, f a = f b := by
  rw [List.all_eq_true]
  constructor
  · intro h a ha b hb
    have key : ∀ x ∈ first :: rest, f x = f first := by
      intro x hx
      rcases List.mem_cons.mp hx with h1 | h1
      · rw [h1]
      · exact eq_of_beq (h x h1)
    rw [key a ha, key b hb]
  · intro h q hq
    exact beq_iff_eq.mpr
      (h q (List.mem_cons_of_mem first hq) first (List.mem_cons_self first rest))

/-- C8: a package in a single-member base-name group is left untouched
(so with its initial name equal to the base name, it keeps that name);
in a group of two or more, the same-version and same-arch tests of the
source are equivalent to all members sharing the version respectively
the arch, the display name is the base name with "-version" appended
when versions differ and ":arch" appended when architectures differ, and
the multiVersion / multiArch flags are set exactly in those cases. -/
theorem c8_display_names (pkgs : List PkgInfo) (p : PkgInfo) (hp : p ∈ pkgs)
    (hname : p.name = p.baseName) :
    (displayTransform (pkgGroup pkgs p.baseName) p ∈ handleMultiPkg pkgs) ∧
    ((pkgGroup pkgs p.baseName).length < 2 →
      displayTransform (pkgGroup pkgs p.baseName) p = p ∧
      (displayTransform (pkgGroup pkgs p.baseName) p).name = p.baseName) ∧
    (2 ≤ (pkgGroup pkgs p.baseName).length →
      (groupSameVersion (pkgGroup pkgs p.baseName) = true ↔
        ∀ a ∈ pkgGroup pkgs p.baseName, ∀ b ∈ pkgGroup pkgs p.baseName,
          a.version = b.version) ∧
      (groupSameArch (pkgGroup pkgs p.baseName) = true ↔
        ∀ a ∈ pkgGroup pkgs p.baseName, ∀ b ∈ pkgGroup pkgs p.baseName,
          a.arch = b.arch) ∧
      (displayTransform (pkgGroup pkgs p.baseName) p).name
        = p.baseName
          ++ (if groupSameVersion (pkgGroup pkgs p.baseName) then ""
              else "-" ++ p.version)
          ++ (if groupSameArch (pkgGroup pkgs p.baseName) then ""
              else ":" ++ p.arch) ∧
      (groupSameVersion (pkgGroup pkgs p.baseName) = false →
        (displayTransform (pkgGroup pkgs p.baseName) p).multiVersion = true) ∧
      (groupSameVersion (pkgGroup pkgs p.baseName) = true →
        (displayTransform (pkgGroup pkgs p.baseName) p).multiVersion = p.multiVersion) ∧
      (groupSameArch (pkgGroup pkgs p.baseName) = false →
        (displayTransform (pkgGroup pkgs p.baseName) p).multiArch = true) ∧
      (groupSameArch (pkgGroup pkgs p.baseName) = true →
        (displayTransform (pkgGroup pkgs p.baseName) p).multiArch = p.multiArch)) := by
  refine ⟨?_, ?_, ?_⟩
  · exact List.mem_map_of_mem (fun q => displayTransform (pkgGroup pkgs q.baseName) q) hp
  · intro hlt
    unfold displayTransform
    rw [if_pos hlt]
    exact ⟨rfl, hname⟩
  · intro hlen
    have hnl : ¬ ((pkgGroup pkgs p.baseName).length < 2) := by omega
    have hne : pkgGroup pkgs p.baseName ≠ [] := by
      intro h0
      rw [h0] at hlen
      exact absurd hlen (by decide)
    obtain ⟨first, rest, hg⟩ := List.exists_cons_of_ne_nil hne
    refine ⟨?_, ?_, ?_, ?_, ?_, ?_, ?_⟩
    · rw [hg]
      exact allRestEq_iff (fun q => q.version) first rest
    · rw [hg]
      exact allRestEq_iff (fun q => q.arch) first rest
    · unfold displayTransform
      rw [if_neg hnl]
    · intro hv
      simp [displayTransform, hnl, hv]
    · intro hv
      simp [displayTransform, hnl, hv]
    · intro ha
      simp [displayTransform, hnl, ha]
    · intro ha
      simp [displayTransform, hnl, ha]

/-- Witness for C8: packages foo 1.0, foo 2.0 and bar 1.0 (same arch)
yield display names foo-1.0, foo-2.0 and bar; the foo group gets its
multiVersion flag set and the singleton bar is untouched. -/
theorem c8_witness :
    (handleMultiPkg
      [{ baseName := "foo", version := "1.0", arch := "amd64", name := "foo"
         multiVersion := false, multiArch := false },
       { baseName := "foo", version := "2.0", arch := "amd64", name := "foo"
         multiVersion := false, multiArch := false },
       { baseName := "bar", version := "1.0", arch := "amd64", name := "bar"
         multiVersion := false, multiArch := false }]).map PkgInfo.name
      = ["foo-1.0", "foo-2.0", "bar"] ∧
    (displayTransform
      (pkgGroup
        [{ baseName := "foo", version := "1.0", arch := "amd64", name := "foo"
           multiVersion := false, multiArch := false },
         { baseName := "foo", version := "2.0", arch := "amd64", name := "foo"
           multiVersion := false, multiArch := false },
         { baseName := "bar", version := "1.0", arch := "amd64", name := "bar"
           multiVersion := false, multiArch := false }] "foo")
      { baseName := "foo", version := "1.0", arch := "amd64", name := "foo"
        multiVersion := false, multiArch := false }).multiVersion = true ∧
    (displayTransform
      (pkgGroup
        [{ baseName := "foo", version := "1.0", arch := "amd64", name := "foo"
           multiVersion := false, multiArch := false },
         { baseName := "foo", version := "2.0", arch := "amd64", name := "foo"
           multiVersion := false, multiArch := false },
         { baseName := "bar", version := "1.0", arch := "amd64", name := "bar"
           multiVersion := false, multiArch := false }] "bar")
      { baseName := "bar", version := "1.0", arch := "amd64", name := "bar"
        multiVersion := false, multiArch := false })
      = { baseName := "bar", version := "1.0", arch := "amd64", name := "bar"
          multiVersion := false, multiArch := false } := by
  refine ⟨by decide, ?_, ?_⟩
  · have h := c8_display_names
      [{ baseName := "foo", version := "1.0", arch := "amd64", name := "foo"
         multiVersion := false, multiArch := false },
       { baseName := "foo", version := "2.0", arch := "amd64", name := "foo"
         multiVersion := false, multiArch := false },
       { baseName := "bar", version := "1.0", arch := "amd64", name := "bar"
         multiVersion := false, multiArch := false }]
      { baseName := "foo", version := "1.0", arch := "amd64", name := "foo"
        multiVersion := false, multiArch := false }
      (by decide) rfl
    exact (h.2.2 (by decide)).2.2.2.1 (by decide)
  · have h := c8_display_names
      [{ baseName := "foo", version := "1.0", arch := "amd64", name := "foo"
         multiVersion := false, multiArch := false },
       { baseName := "foo", version := "2.0", arch := "amd64", name := "foo"
         multiVersion := false, multiArch := false },
       { baseName := "bar", version := "1.0", arch := "amd64", name := "bar"
         multiVersion := false, multiArch := false }]
      { baseName := "bar", version := "1.0", arch := "amd64", name := "bar"
        multiVersion := false, multiArch := false }
      (by decide) rfl
    exact (h.2.1 (by decide)).1

end QDirStat
